import Mathlib

/-!
Shallow embedding of the BuildStream job scheduler core
(`src/buildstream/_scheduler/job.py`, `src/buildstream/_scheduler/trackqueue.py`,
`src/buildstream/_stream.py`).

The payload type of results and workspace dictionaries is an opaque type
parameter `α` (the Python code treats them as opaque serializable objects).
Machine-level concerns (process ids, file descriptors, the asyncio loop) are
abstracted away; the control flow, counters and state assignments are
translated statement by statement from the source.
-/

/-- Message severities used by `job.py` (from `_message.MessageType`). -/
inductive MessageType where
  | start
  | success
  | fail
  | warn
  | bug
  | log
  | status
  deriving DecidableEq, Repr

/-- Envelope: "Used to distinguish between status messages and return values"
(job.py line 40).  The four `message_type` tags occurring in the source are
`'message'`, `'result'`, `'workspace'` and `'error'`.  A `message` envelope
carries a `Message` object; the model keeps its (possibly rewritten)
`message_type`, which is all the claims inspect.  An `error` envelope carries
`{'domain': ..., 'reason': ...}`. -/
inductive Envelope (α : Type) where
  | message (t : MessageType)
  | result (v : α)
  | workspace (w : α)
  | error (domain reason : Option String)
  deriving DecidableEq, Repr

/-- Whether an envelope is a `'message'` envelope. -/
def Envelope.isMessage : Envelope α → Bool
  | .message _ => true
  | _ => false

/-- Whether an envelope is a `'result'` envelope. -/
def Envelope.isResult : Envelope α → Bool
  | .result _ => true
  | _ => false

/-- Whether an envelope is a `'workspace'` envelope. -/
def Envelope.isWorkspace : Envelope α → Bool
  | .workspace _ => true
  | _ => false

/-- Whether an envelope is an `'error'` envelope. -/
def Envelope.isError : Envelope α → Bool
  | .error _ _ => true
  | _ => false

/-- Outcome of one call of `action_cb(element)` inside the child
(`Job.child_action`, job.py lines 282-314): it returns a value (`None` or
some serializable object), raises a `BstError` carrying a domain and reason,
or raises any other exception (a bug). -/
inductive Outcome (α : Type) where
  | ok (r : Option α)
  | domainErr (domain reason : Option String)
  | bug
  deriving DecidableEq, Repr

/-- Exit code of the child for a given action outcome: `child_shutdown(0)` on
the success path, `child_shutdown(1)` on both failure paths. -/
def Outcome.exitCode : Outcome α → Nat
  | .ok _ => 0
  | .domainErr _ _ => 1
  | .bug => 1

/-- The value the attempt delivered to the parent: the action's return value
on success (sent only when it is not `None`), nothing on failure. -/
def Outcome.delivered : Outcome α → Option α
  | .ok r => r
  | .domainErr _ _ => none
  | .bug => none

/-- The type rewrite in `Job.child_message_handler` (job.py lines 402-404):
`if message.message_type == MessageType.FAIL and self.tries <= self.max_retries:
 message.message_type = MessageType.WARN`. -/
def child_message_rewrite (tries max_retries : Nat) (t : MessageType) : MessageType :=
  if t = MessageType.fail ∧ tries ≤ max_retries then MessageType.warn else t

/-- `Job.child_message_handler` (job.py lines 389-413), restricted to what it
puts on the queue.  After the FAIL→WARN rewrite the handler returns without
forwarding when the context silences messages and the (rewritten) type is not
unconditional, or when the type is LOG; otherwise it enqueues a `'message'`
envelope.  `silent` models `context.silent_messages()` and `uncond` models
membership in `unconditional_messages` (defined in `_message.py`, outside the
excerpted sources, hence kept abstract). -/
def child_message_handler (tries max_retries : Nat) (silent : Bool)
    (uncond : MessageType → Bool) (t : MessageType) : Option MessageType :=
  let t' := child_message_rewrite tries max_retries t
  if silent = true ∧ uncond t' = false then none
  else if t' = MessageType.log then none
  else some t'

/-- The `'message'` envelopes enqueued for a list of messages emitted through
`self.message(...)` in the child (each goes through `child_message_handler`). -/
def handledMsgs (tries max_retries : Nat) (silent : Bool)
    (uncond : MessageType → Bool) (ts : List MessageType) : List (Envelope α) :=
  ts.filterMap fun t =>
    (child_message_handler tries max_retries silent uncond t).map Envelope.message

/-- `Job.child_send_workspace` (job.py lines 349-353): enqueue one
`'workspace'` envelope when the element has a workspace, nothing otherwise. -/
def child_send_workspace : Option α → List (Envelope α)
  | some w => [Envelope.workspace w]
  | none => []

/-- `Job.child_send_result` (job.py lines 344-347): enqueue one `'result'`
envelope exactly when the action's return value is not `None`. -/
def child_send_result : Option α → List (Envelope α)
  | some v => [Envelope.result v]
  | none => []

/-- `Job.child_action` (job.py lines 240-328) as the sequence of envelopes the
child puts on the queue, paired with its exit code.  Every run first emits a
START message and a LOG message (the environment dump), then the messages the
action itself emits (`amsgs`); then:
  * `BstError` branch: a FAIL message (downgraded by the handler when the job
    will be retried), the workspace envelope, the error envelope, exit 1;
  * other exception branch: a BUG message, exit 1 (no error envelope);
  * else branch: the workspace envelope, the result envelope, a SUCCESS
    message, exit 0. -/
def child_action (o : Outcome α) (ws : Option α) (amsgs : List MessageType)
    (tries max_retries : Nat) (silent : Bool) (uncond : MessageType → Bool) :
    List (Envelope α) × Nat :=
  let pre : List (Envelope α) :=
    handledMsgs tries max_retries silent uncond
      ([MessageType.start, MessageType.log] ++ amsgs)
  match o with
  | .ok r =>
      (pre ++ child_send_workspace ws ++ child_send_result r
        ++ handledMsgs tries max_retries silent uncond [MessageType.success], 0)
  | .domainErr d reason =>
      (pre ++ handledMsgs tries max_retries silent uncond [MessageType.fail]
        ++ child_send_workspace ws ++ [Envelope.error d reason], 1)
  | .bug =>
      (pre ++ handledMsgs tries max_retries silent uncond [MessageType.bug], 1)

/-- Parent-side mutable state of a `Job` touched by envelope processing
(job.py `__init__` lines 108-115 and `parent_process_envelope`).  `forwarded`
records the messages propagated to `self.scheduler.context.message`;
`last_task_error` models the global slot set by `set_last_task_error`;
`resultAssigns` / `workspaceAssigns` count the assignments to `self.result`
and `self.workspace_dict` performed while processing envelopes. -/
structure ParentState (α : Type) where
  listening : Bool
  result : Option α
  workspace_dict : Option α
  last_task_error : Option (Option String × Option String)
  forwarded : List MessageType
  resultAssigns : Nat
  workspaceAssigns : Nat
  deriving DecidableEq, Repr

/-- The state after `Job.__init__`: not listening, no result, no workspace. -/
def ParentState.initial : ParentState α :=
  { listening := false, result := none, workspace_dict := none,
    last_task_error := none, forwarded := [], resultAssigns := 0,
    workspaceAssigns := 0 }

/-- `Job.parent_process_envelope` (job.py lines 437-457).  When the parent is
not listening the envelope is dropped with no effect; otherwise `'message'`
is forwarded to the context, `'error'` records the last task error,
`'result'` assigns `self.result` (the source asserts it was `None`), and
`'workspace'` assigns `self.workspace_dict`. -/
def parent_process_envelope (st : ParentState α) (e : Envelope α) : ParentState α :=
  if st.listening = false then st
  else
    match e with
    | .message t => { st with forwarded := st.forwarded ++ [t] }
    | .error d r => { st with last_task_error := some (d, r) }
    | .result v => { st with result := some v, resultAssigns := st.resultAssigns + 1 }
    | .workspace w =>
        { st with workspace_dict := some w, workspaceAssigns := st.workspaceAssigns + 1 }

/-- `Job.parent_process_queue` (job.py lines 459-462): drain the queue,
processing each envelope in order. -/
def parent_process_queue (st : ParentState α) (envs : List (Envelope α)) : ParentState α :=
  envs.foldl parent_process_envelope st

/-- State relevant to `Job.suspend` (job.py lines 194-212): the job's
`suspended` flag, the scheduler's `internal_stops` counter, and (for the
specification) a count of SIGTSTP signals actually delivered to the child. -/
structure SuspendState where
  suspended : Bool
  internal_stops : Nat
  signals_sent : Nat
  deriving DecidableEq, Repr

/-- `Job.suspend` (job.py lines 194-212).  `processExists` tells whether
`os.kill(self.process.pid, signal.SIGTSTP)` finds the child: if it does not,
`ProcessLookupError` is raised before the counter increment and the flag
assignment, and both are skipped.  Nothing happens when already suspended. -/
def Job.suspend (processExists : Bool) (st : SuspendState) : SuspendState :=
  if st.suspended = false then
    if processExists then
      { st with signals_sent := st.signals_sent + 1,
                internal_stops := st.internal_stops + 1,
                suspended := true }
    else st
  else st

/-- The queue kinds assembled by `Stream.build` (`_stream.py`). -/
inductive QueueKind where
  | track
  | pull
  | fetch
  | build
  | push
  deriving DecidableEq, Repr

/-- The pipeline assembly of `Stream.build` (`_stream.py` lines 139-155): a
TrackQueue when there are track elements, a PullQueue when the artifact cache
`has_fetch_remotes()`, then the FetchQueue and the BuildQueue, then a
PushQueue when the cache `has_push_remotes()`. -/
def Stream.buildQueues (hasTrackElements hasFetchRemotes hasPushRemotes : Bool) :
    List QueueKind :=
  let queues : List QueueKind := []
  let queues := if hasTrackElements then queues ++ [QueueKind.track] else queues
  let queues := if hasFetchRemotes then queues ++ [QueueKind.pull] else queues
  let queues := queues ++ [QueueKind.fetch]
  let queues := queues ++ [QueueKind.build]
  let queues := if hasPushRemotes then queues ++ [QueueKind.push] else queues
  queues

/-- `TrackQueue.done` (trackqueue.py lines 52-79).  `result` is the list of
`(unique_id, new_ref)` pairs; `saveOk i` tells whether `source._save_ref`
succeeds for id `i` (a `SourceError` is caught and only warned about).  The
model returns the `keep_in_pipeline` boolean together with the ids whose refs
were saved.  The local `changed` flag is initialized to `False` and never
reassigned, and is what the function returns on the `returncode == 0` path. -/
def TrackQueue.done (saveOk : Nat → Bool) (result : List (Nat × Nat))
    (returncode : Int) : Bool × List Nat :=
  if returncode ≠ 0 then (false, [])
  else
    let changed := false
    let saved := (result.filter fun p => saveOk p.1).map Prod.fst
    (changed, saved)

/-- Observable record of a whole `Job` lifetime: the number of `spawn()`
calls, the arguments of the final `complete_cb` invocation (`success`,
`result`), the list of all `complete_cb` invocations, and the parent state
after the last `parent_shutdown`. -/
structure JobRecord (α : Type) where
  spawns : Nat
  tries : Nat
  finalSuccess : Bool
  finalResult : Option α
  completions : List (Bool × Option α)
  state : ParentState α
  deriving DecidableEq, Repr

/-- One spawn-run-complete round and the retry loop of a `Job`
(job.py `spawn` lines 120-144 and `parent_child_completed` lines 428-435).
`spawn()` increments `self.tries` and starts listening; the child for attempt
number `tries` runs `outcome tries` (its action outcome), with the element's
workspace `ws` and the messages `amsgs tries` emitted during the action; on
child completion `parent_shutdown` drains the queue and stops listening, then
`parent_child_completed` re-spawns when `returncode != 0 and self.tries <=
self.max_retries`, and otherwise calls
`complete_cb(self, element, returncode == 0, self.result)`. -/
def runJobFrom (outcome : Nat → Outcome α) (ws : Option α)
    (amsgs : Nat → List MessageType) (max_retries : Nat) (silent : Bool)
    (uncond : MessageType → Bool) (tries : Nat) (st : ParentState α)
    (spawns : Nat) (comps : List (Bool × Option α)) : JobRecord α :=
  let tries' := tries + 1
  let cr := child_action (outcome tries') ws (amsgs tries') tries' max_retries silent uncond
  let st1 := parent_process_queue { st with listening := true } cr.1
  let st2 := { st1 with listening := false }
  if h : cr.2 ≠ 0 ∧ tries' ≤ max_retries then
    runJobFrom outcome ws amsgs max_retries silent uncond tries' st2 (spawns + 1) comps
  else
    { spawns := spawns + 1
      tries := tries'
      finalSuccess := cr.2 = 0
      finalResult := st2.result
      completions := comps ++ [(decide (cr.2 = 0), st2.result)]
      state := st2 }
termination_by max_retries + 1 - tries
decreasing_by omega

/-- A whole `Job` lifetime started from the freshly constructed state
(`tries = 0`, nothing assigned): `spawn()` is called once from the outside
and then only from `parent_child_completed`. -/
def runJob (outcome : Nat → Outcome α) (ws : Option α)
    (amsgs : Nat → List MessageType) (max_retries : Nat) (silent : Bool)
    (uncond : MessageType → Bool) : JobRecord α :=
  runJobFrom outcome ws amsgs max_retries silent uncond 0 ParentState.initial 0 []

/-! ### Helper lemmas about envelopes and the child trace -/

theorem Envelope.not_result_of_isMessage (e : Envelope α) (h : e.isMessage = true) :
    e.isResult = false := by
  cases e <;> simp_all [Envelope.isMessage, Envelope.isResult]

theorem Envelope.not_workspace_of_isMessage (e : Envelope α) (h : e.isMessage = true) :
    e.isWorkspace = false := by
  cases e <;> simp_all [Envelope.isMessage, Envelope.isWorkspace]

theorem Envelope.not_error_of_isMessage (e : Envelope α) (h : e.isMessage = true) :
    e.isError = false := by
  cases e <;> simp_all [Envelope.isMessage, Envelope.isError]

theorem handledMsgs_isMessage (tries mr : Nat) (silent : Bool) (uncond : MessageType → Bool)
    (ts : List MessageType) :
    ∀ e ∈ (handledMsgs tries mr silent uncond ts : List (Envelope α)), e.isMessage = true := by
  intro e he
  simp only [handledMsgs, List.mem_filterMap, Option.map_eq_some'] at he
  obtain ⟨t, -, b, -, rfl⟩ := he
  rfl

theorem mem_child_send_workspace (ws : Option α) :
    ∀ e ∈ child_send_workspace ws, e.isWorkspace = true := by
  cases ws <;> simp [child_send_workspace, Envelope.isWorkspace]

theorem mem_child_send_result (r : Option α) :
    ∀ e ∈ child_send_result r, e.isResult = true := by
  cases r <;> simp [child_send_result, Envelope.isResult]

theorem countP_result_handledMsgs (tries mr : Nat) (silent : Bool)
    (uncond : MessageType → Bool) (ts : List MessageType) :
    (handledMsgs tries mr silent uncond ts : List (Envelope α)).countP Envelope.isResult = 0 := by
  refine List.countP_eq_zero.mpr fun e he => ?_
  simp [Envelope.not_result_of_isMessage e (handledMsgs_isMessage tries mr silent uncond ts e he)]

theorem countP_workspace_handledMsgs (tries mr : Nat) (silent : Bool)
    (uncond : MessageType → Bool) (ts : List MessageType) :
    (handledMsgs tries mr silent uncond ts : List (Envelope α)).countP Envelope.isWorkspace = 0 := by
  refine List.countP_eq_zero.mpr fun e he => ?_
  simp [Envelope.not_workspace_of_isMessage e (handledMsgs_isMessage tries mr silent uncond ts e he)]

theorem countP_error_handledMsgs (tries mr : Nat) (silent : Bool)
    (uncond : MessageType → Bool) (ts : List MessageType) :
    (handledMsgs tries mr silent uncond ts : List (Envelope α)).countP Envelope.isError = 0 := by
  refine List.countP_eq_zero.mpr fun e he => ?_
  simp [Envelope.not_error_of_isMessage e (handledMsgs_isMessage tries mr silent uncond ts e he)]

theorem countP_workspace_child_send_workspace (ws : Option α) :
    (child_send_workspace ws).countP Envelope.isWorkspace ≤ 1 := by
  cases ws <;> simp [child_send_workspace, Envelope.isWorkspace, List.countP_cons]

theorem countP_result_child_send_workspace (ws : Option α) :
    (child_send_workspace ws).countP Envelope.isResult = 0 := by
  cases ws <;> simp [child_send_workspace, Envelope.isResult, List.countP_cons]

theorem countP_error_child_send_workspace (ws : Option α) :
    (child_send_workspace ws).countP Envelope.isError = 0 := by
  cases ws <;> simp [child_send_workspace, Envelope.isError, List.countP_cons]

theorem countP_result_child_send_result (r : Option α) :
    (child_send_result r).countP Envelope.isResult = if r.isNone = true then 0 else 1 := by
  cases r <;> simp [child_send_result, Envelope.isResult, List.countP_cons]

theorem countP_workspace_child_send_result (r : Option α) :
    (child_send_result r).countP Envelope.isWorkspace = 0 := by
  cases r <;> simp [child_send_result, Envelope.isWorkspace, List.countP_cons]

theorem countP_error_child_send_result (r : Option α) :
    (child_send_result r).countP Envelope.isError = 0 := by
  cases r <;> simp [child_send_result, Envelope.isError, List.countP_cons]

theorem child_action_exitCode (o : Outcome α) (ws : Option α) (amsgs : List MessageType)
    (t m : Nat) (s : Bool) (u : MessageType → Bool) :
    (child_action o ws amsgs t m s u).2 = o.exitCode := by
  cases o <;> rfl

theorem Outcome.exitCode_eq_zero (o : Outcome α) (h : o.exitCode = 0) :
    ∃ r, o = Outcome.ok r := by
  cases o <;> simp_all [Outcome.exitCode]

theorem parent_process_envelope_listening (st : ParentState α) (e : Envelope α) :
    (parent_process_envelope st e).listening = st.listening := by
  unfold parent_process_envelope
  by_cases h : st.listening = false
  · simp [h]
  · cases e <;> simp [h]

theorem parent_process_queue_listening (envs : List (Envelope α)) :
    ∀ st : ParentState α, (parent_process_queue st envs).listening = st.listening := by
  induction envs with
  | nil => intro st; rfl
  | cons e rest ih =>
      intro st
      simpa [parent_process_queue] using
        (ih (parent_process_envelope st e)).trans (parent_process_envelope_listening st e)

theorem parent_process_envelope_result_of_not (st : ParentState α) (e : Envelope α)
    (h : e.isResult = false) :
    (parent_process_envelope st e).result = st.result ∧
      (parent_process_envelope st e).resultAssigns = st.resultAssigns := by
  unfold parent_process_envelope
  by_cases hl : st.listening = false
  · simp [hl]
  · cases e <;> simp_all [Envelope.isResult]

theorem parent_process_queue_result_of_none (envs : List (Envelope α))
    (h : ∀ e ∈ envs, e.isResult = false) :
    ∀ st : ParentState α, (parent_process_queue st envs).result = st.result ∧
      (parent_process_queue st envs).resultAssigns = st.resultAssigns := by
  induction envs with
  | nil => intro st; exact ⟨rfl, rfl⟩
  | cons e rest ih =>
      intro st
      have he := parent_process_envelope_result_of_not st e (h e (by simp))
      have hr := ih (fun x hx => h x (by simp [hx])) (parent_process_envelope st e)
      simp only [parent_process_queue, List.foldl_cons] at hr ⊢
      exact ⟨hr.1.trans he.1, hr.2.trans he.2⟩

theorem parent_process_envelope_lte_of_not (st : ParentState α) (e : Envelope α)
    (h : e.isError = false) :
    (parent_process_envelope st e).last_task_error = st.last_task_error := by
  unfold parent_process_envelope
  by_cases hl : st.listening = false
  · simp [hl]
  · cases e <;> simp_all [Envelope.isError]

theorem parent_process_queue_lte_of_none (envs : List (Envelope α))
    (h : ∀ e ∈ envs, e.isError = false) :
    ∀ st : ParentState α,
      (parent_process_queue st envs).last_task_error = st.last_task_error := by
  induction envs with
  | nil => intro st; rfl
  | cons e rest ih =>
      intro st
      have he := parent_process_envelope_lte_of_not st e (h e (by simp))
      have hr := ih (fun x hx => h x (by simp [hx])) (parent_process_envelope st e)
      simp only [parent_process_queue, List.foldl_cons] at hr ⊢
      exact hr.trans he

theorem parent_process_envelope_workspaceAssigns_le (st : ParentState α) (e : Envelope α) :
    (parent_process_envelope st e).workspaceAssigns ≤
      st.workspaceAssigns + (if e.isWorkspace then 1 else 0) := by
  unfold parent_process_envelope
  by_cases hl : st.listening = false
  · simp [hl]
  · cases e <;> simp [hl, Envelope.isWorkspace]

theorem parent_process_queue_workspaceAssigns_le (envs : List (Envelope α)) :
    ∀ st : ParentState α, (parent_process_queue st envs).workspaceAssigns ≤
      st.workspaceAssigns + envs.countP Envelope.isWorkspace := by
  induction envs with
  | nil => intro st; simp [parent_process_queue]
  | cons e rest ih =>
      intro st
      have he := parent_process_envelope_workspaceAssigns_le st e
      have hr := ih (parent_process_envelope st e)
      simp only [parent_process_queue, List.foldl_cons] at hr ⊢
      rw [List.countP_cons]
      by_cases hw : e.isWorkspace <;> simp [hw] at he ⊢ <;> omega

theorem parent_process_envelope_resultAssigns_le (st : ParentState α) (e : Envelope α) :
    (parent_process_envelope st e).resultAssigns ≤
      st.resultAssigns + (if e.isResult then 1 else 0) := by
  unfold parent_process_envelope
  by_cases hl : st.listening = false
  · simp [hl]
  · cases e <;> simp [hl, Envelope.isResult]

theorem parent_process_queue_resultAssigns_le (envs : List (Envelope α)) :
    ∀ st : ParentState α, (parent_process_queue st envs).resultAssigns ≤
      st.resultAssigns + envs.countP Envelope.isResult := by
  induction envs with
  | nil => intro st; simp [parent_process_queue]
  | cons e rest ih =>
      intro st
      have he := parent_process_envelope_resultAssigns_le st e
      have hr := ih (parent_process_envelope st e)
      simp only [parent_process_queue, List.foldl_cons] at hr ⊢
      rw [List.countP_cons]
      by_cases hw : e.isResult <;> simp [hw] at he ⊢ <;> omega

theorem child_action_no_result_of_fail (o : Outcome α) (ws : Option α)
    (amsgs : List MessageType) (t m : Nat) (si : Bool) (u : MessageType → Bool)
    (h : o.exitCode ≠ 0) :
    ∀ e ∈ (child_action o ws amsgs t m si u).1, e.isResult = false := by
  cases o with
  | ok r => simp [Outcome.exitCode] at h
  | domainErr d reason =>
      intro e he
      simp only [child_action, List.mem_append] at he
      rcases he with ((hp | hf) | hw) | he
      · exact Envelope.not_result_of_isMessage e (handledMsgs_isMessage _ _ _ _ _ e hp)
      · exact Envelope.not_result_of_isMessage e (handledMsgs_isMessage _ _ _ _ _ e hf)
      · have := mem_child_send_workspace ws e hw
        cases e <;> simp_all [Envelope.isWorkspace, Envelope.isResult]
      · simp only [List.mem_singleton] at he
        subst he; rfl
  | bug =>
      intro e he
      simp only [child_action, List.mem_append] at he
      rcases he with hp | hb
      · exact Envelope.not_result_of_isMessage e (handledMsgs_isMessage _ _ _ _ _ e hp)
      · exact Envelope.not_result_of_isMessage e (handledMsgs_isMessage _ _ _ _ _ e hb)

theorem child_action_no_error_of_bug (ws : Option α) (amsgs : List MessageType)
    (t m : Nat) (si : Bool) (u : MessageType → Bool) :
    ∀ e ∈ (child_action (Outcome.bug) ws amsgs t m si u).1, e.isError = false := by
  intro e he
  simp only [child_action, List.mem_append] at he
  rcases he with hp | hb
  · exact Envelope.not_error_of_isMessage e (handledMsgs_isMessage _ _ _ _ _ e hp)
  · exact Envelope.not_error_of_isMessage e (handledMsgs_isMessage _ _ _ _ _ e hb)

theorem child_action_no_error_of_ok (r : Option α) (ws : Option α)
    (amsgs : List MessageType) (t m : Nat) (si : Bool) (u : MessageType → Bool) :
    ∀ e ∈ (child_action (Outcome.ok r) ws amsgs t m si u).1, e.isError = false := by
  intro e he
  simp only [child_action, List.mem_append] at he
  rcases he with ((hp | hw) | hr) | hs
  · exact Envelope.not_error_of_isMessage e (handledMsgs_isMessage _ _ _ _ _ e hp)
  · have := mem_child_send_workspace ws e hw
    cases e <;> simp_all [Envelope.isWorkspace, Envelope.isError]
  · have := mem_child_send_result r e hr
    cases e <;> simp_all [Envelope.isResult, Envelope.isError]
  · exact Envelope.not_error_of_isMessage e (handledMsgs_isMessage _ _ _ _ _ e hs)

theorem parent_process_queue_nil (st : ParentState α) :
    parent_process_queue st [] = st := rfl

theorem parent_process_queue_singleton (st : ParentState α) (e : Envelope α) :
    parent_process_queue st [e] = parent_process_envelope st e := rfl

theorem parent_process_queue_append (st : ParentState α) (l1 l2 : List (Envelope α)) :
    parent_process_queue st (l1 ++ l2) =
      parent_process_queue (parent_process_queue st l1) l2 := by
  simp [parent_process_queue, List.foldl_append]

theorem parent_process_queue_ok_result (r : Option α) (ws : Option α)
    (amsgs : List MessageType) (t m : Nat) (si : Bool) (u : MessageType → Bool)
    (st : ParentState α) (hl : st.listening = true) :
    (parent_process_queue st (child_action (Outcome.ok r) ws amsgs t m si u).1).result =
      (match r with | some v => some v | none => st.result) := by
  have hpre : ∀ e ∈ (handledMsgs t m si u
      ([MessageType.start, MessageType.log] ++ amsgs) : List (Envelope α)),
      e.isResult = false := fun e he =>
    Envelope.not_result_of_isMessage e (handledMsgs_isMessage _ _ _ _ _ e he)
  have hws : ∀ e ∈ child_send_workspace ws, e.isResult = false := by
    intro e he
    have := mem_child_send_workspace ws e he
    cases e <;> simp_all [Envelope.isWorkspace, Envelope.isResult]
  have hsucc : ∀ e ∈ (handledMsgs t m si u [MessageType.success] : List (Envelope α)),
      e.isResult = false := fun e he =>
    Envelope.not_result_of_isMessage e (handledMsgs_isMessage _ _ _ _ _ e he)
  simp only [child_action]
  rw [parent_process_queue_append, parent_process_queue_append, parent_process_queue_append]
  rw [(parent_process_queue_result_of_none _ hsucc _).1]
  have hlst : (parent_process_queue (parent_process_queue st
      (handledMsgs t m si u ([MessageType.start, MessageType.log] ++ amsgs)))
      (child_send_workspace ws)).listening = true := by
    rw [parent_process_queue_listening, parent_process_queue_listening, hl]
  cases r with
  | none =>
      simp only [child_send_result, parent_process_queue_nil]
      rw [(parent_process_queue_result_of_none _ hws _).1,
        (parent_process_queue_result_of_none _ hpre _).1]
  | some v =>
      simp only [child_send_result, parent_process_queue_singleton]
      unfold parent_process_envelope
      rw [hlst]
      simp

theorem child_action_countP_workspace_le (o : Outcome α) (ws : Option α)
    (amsgs : List MessageType) (t m : Nat) (si : Bool) (u : MessageType → Bool) :
    ((child_action o ws amsgs t m si u).1.countP Envelope.isWorkspace) ≤ 1 := by
  cases o <;>
    simp [child_action, List.countP_append, countP_workspace_handledMsgs,
      countP_workspace_child_send_result, List.countP_cons, Envelope.isWorkspace] <;>
    have := countP_workspace_child_send_workspace ws <;> omega

theorem child_action_countP_result_le (o : Outcome α) (ws : Option α)
    (amsgs : List MessageType) (t m : Nat) (si : Bool) (u : MessageType → Bool) :
    ((child_action o ws amsgs t m si u).1.countP Envelope.isResult) ≤ 1 := by
  cases o with
  | ok r =>
      simp [child_action, List.countP_append, countP_result_handledMsgs,
        countP_result_child_send_workspace, countP_result_child_send_result]
      split <;> omega
  | domainErr d reason =>
      simp [child_action, List.countP_append, countP_result_handledMsgs,
        countP_result_child_send_workspace, List.countP_cons, Envelope.isResult]
  | bug =>
      simp [child_action, List.countP_append, countP_result_handledMsgs]

theorem runJobFrom_spawns_ge (outcome : Nat → Outcome α) (ws : Option α)
    (amsgs : Nat → List MessageType) (N : Nat) (silent : Bool)
    (uncond : MessageType → Bool) :
    ∀ t st s c, s + 1 ≤ (runJobFrom outcome ws amsgs N silent uncond t st s c).spawns := by
  intro t st s c
  induction t, st, s, c using runJobFrom.induct outcome ws amsgs N silent uncond with
  | case1 t st s c tries' cr st1 st2 h ih =>
      unfold_let tries' cr st1 st2 at ih h
      rw [runJobFrom.eq_def]
      simp only []
      rw [dif_pos h]
      omega
  | case2 t st s c tries' cr h =>
      unfold_let tries' cr at h
      rw [runJobFrom.eq_def]
      simp only []
      rw [dif_neg h]

theorem runJobFrom_all_fail (outcome : Nat → Outcome α) (ws : Option α)
    (amsgs : Nat → List MessageType) (N : Nat) (silent : Bool)
    (uncond : MessageType → Bool) (h : ∀ k, (outcome k).exitCode ≠ 0) :
    ∀ t st s c,
      (runJobFrom outcome ws amsgs N silent uncond t st s c).spawns = s + max 1 (N + 1 - t) ∧
      (runJobFrom outcome ws amsgs N silent uncond t st s c).finalSuccess = false := by
  intro t st s c
  induction t, st, s, c using runJobFrom.induct outcome ws amsgs N silent uncond with
  | case1 t st s c tries' cr st1 st2 hc ih =>
      unfold_let tries' cr st1 st2 at ih hc
      rw [runJobFrom.eq_def]
      simp only []
      rw [dif_pos hc]
      refine ⟨?_, ih.2⟩
      rw [ih.1]
      omega
  | case2 t st s c tries' cr hc =>
      unfold_let tries' cr at hc
      have hrc : (child_action (outcome (t + 1)) ws (amsgs (t + 1)) (t + 1) N silent uncond).2 ≠ 0 := by
        rw [child_action_exitCode]; exact h (t + 1)
      have ht : ¬(t + 1 ≤ N) := by tauto
      rw [runJobFrom.eq_def]
      simp only []
      rw [dif_neg hc]
      constructor
      · simp only []
        omega
      · simp [hrc]

theorem runJobFrom_completions (outcome : Nat → Outcome α) (ws : Option α)
    (amsgs : Nat → List MessageType) (N : Nat) (silent : Bool)
    (uncond : MessageType → Bool) :
    ∀ t st s c,
      (runJobFrom outcome ws amsgs N silent uncond t st s c).completions =
        c ++ [((runJobFrom outcome ws amsgs N silent uncond t st s c).finalSuccess,
               (runJobFrom outcome ws amsgs N silent uncond t st s c).finalResult)] ∧
      (runJobFrom outcome ws amsgs N silent uncond t st s c).tries + s =
        (runJobFrom outcome ws amsgs N silent uncond t st s c).spawns + t := by
  intro t st s c
  induction t, st, s, c using runJobFrom.induct outcome ws amsgs N silent uncond with
  | case1 t st s c tries' cr st1 st2 hc ih =>
      unfold_let tries' cr st1 st2 at hc ih
      rw [runJobFrom.eq_def]
      simp only []
      rw [dif_pos hc]
      exact ⟨ih.1, by omega⟩
  | case2 t st s c tries' cr hc =>
      unfold_let tries' cr at hc
      rw [runJobFrom.eq_def]
      simp only []
      rw [dif_neg hc]
      refine ⟨rfl, ?_⟩
      show t + 1 + s = s + 1 + t
      omega

theorem Outcome.delivered_none_of_fail (o : Outcome α) (h : o.exitCode ≠ 0) :
    o.delivered = none := by
  cases o <;> simp_all [Outcome.exitCode, Outcome.delivered]

theorem runJobFrom_final (outcome : Nat → Outcome α) (ws : Option α)
    (amsgs : Nat → List MessageType) (N : Nat) (silent : Bool)
    (uncond : MessageType → Bool) :
    ∀ t st s c, st.result = none →
      (runJobFrom outcome ws amsgs N silent uncond t st s c).finalResult =
        (outcome (runJobFrom outcome ws amsgs N silent uncond t st s c).tries).delivered ∧
      (runJobFrom outcome ws amsgs N silent uncond t st s c).finalSuccess =
        decide ((outcome (runJobFrom outcome ws amsgs N silent uncond t st s c).tries).exitCode = 0) := by
  intro t st s c
  induction t, st, s, c using runJobFrom.induct outcome ws amsgs N silent uncond with
  | case1 t st s c tries' cr st1 st2 hc ih =>
      unfold_let tries' cr st1 st2 at hc ih
      intro hres
      rw [runJobFrom.eq_def]
      simp only []
      rw [dif_pos hc]
      refine ih ?_
      have hnores := child_action_no_result_of_fail (outcome (t + 1)) ws (amsgs (t + 1))
        (t + 1) N silent uncond
        (by rw [← child_action_exitCode (outcome (t + 1)) ws (amsgs (t + 1)) (t + 1) N silent uncond]
            exact hc.1)
      exact (parent_process_queue_result_of_none _ hnores _).1.trans hres
  | case2 t st s c tries' cr hc =>
      unfold_let tries' cr at hc
      intro hres
      rw [runJobFrom.eq_def]
      simp only []
      rw [dif_neg hc]
      dsimp only
      by_cases hrc : (child_action (outcome (t + 1)) ws (amsgs (t + 1)) (t + 1) N silent uncond).2 = 0
      · have hexit : (outcome (t + 1)).exitCode = 0 := by
          rw [← child_action_exitCode (outcome (t + 1)) ws (amsgs (t + 1)) (t + 1) N silent uncond]
          exact hrc
        obtain ⟨r, hok⟩ := Outcome.exitCode_eq_zero _ hexit
        constructor
        · rw [hok]
          rw [parent_process_queue_ok_result r ws (amsgs (t + 1)) (t + 1) N silent uncond
            { st with listening := true } rfl]
          cases r <;> simp [Outcome.delivered, hres]
        · simp [hrc, hexit]
      · have hexit : (outcome (t + 1)).exitCode ≠ 0 := by
          rw [← child_action_exitCode (outcome (t + 1)) ws (amsgs (t + 1)) (t + 1) N silent uncond]
          exact hrc
        have hnores := child_action_no_result_of_fail (outcome (t + 1)) ws (amsgs (t + 1))
          (t + 1) N silent uncond hexit
        constructor
        · rw [(parent_process_queue_result_of_none _ hnores _).1]
          rw [Outcome.delivered_none_of_fail _ hexit]
          exact hres
        · simp [hrc, hexit]

theorem runJobFrom_assigns (outcome : Nat → Outcome α) (ws : Option α)
    (amsgs : Nat → List MessageType) (N : Nat) (silent : Bool)
    (uncond : MessageType → Bool) :
    ∀ t st s c,
      (runJobFrom outcome ws amsgs N silent uncond t st s c).state.resultAssigns ≤
        st.resultAssigns + 1 ∧
      (runJobFrom outcome ws amsgs N silent uncond t st s c).state.workspaceAssigns +
          s ≤ st.workspaceAssigns +
          (runJobFrom outcome ws amsgs N silent uncond t st s c).spawns := by
  intro t st s c
  induction t, st, s, c using runJobFrom.induct outcome ws amsgs N silent uncond with
  | case1 t st s c tries' cr st1 st2 hc ih =>
      unfold_let tries' cr st1 st2 at hc ih
      rw [runJobFrom.eq_def]
      simp only []
      rw [dif_pos hc]
      have hnores := child_action_no_result_of_fail (outcome (t + 1)) ws (amsgs (t + 1))
        (t + 1) N silent uncond
        (by rw [← child_action_exitCode (outcome (t + 1)) ws (amsgs (t + 1)) (t + 1) N silent uncond]
            exact hc.1)
      have hres := (parent_process_queue_result_of_none _ hnores ({ st with listening := true })).2
      have hwsq := parent_process_queue_workspaceAssigns_le
        ((child_action (outcome (t + 1)) ws (amsgs (t + 1)) (t + 1) N silent uncond).1)
        { st with listening := true }
      have hwc := child_action_countP_workspace_le (outcome (t + 1)) ws (amsgs (t + 1))
        (t + 1) N silent uncond
      have hsp := runJobFrom_spawns_ge outcome ws amsgs N silent uncond (t + 1)
        { (parent_process_queue { st with listening := true }
            (child_action (outcome (t + 1)) ws (amsgs (t + 1)) (t + 1) N silent uncond).1)
          with listening := false } (s + 1) c
      dsimp only at ih hres hwsq ⊢
      omega
  | case2 t st s c tries' cr hc =>
      unfold_let tries' cr at hc
      rw [runJobFrom.eq_def]
      simp only []
      rw [dif_neg hc]
      have hresq := parent_process_queue_resultAssigns_le
        ((child_action (outcome (t + 1)) ws (amsgs (t + 1)) (t + 1) N silent uncond).1)
        { st with listening := true }
      have hrc := child_action_countP_result_le (outcome (t + 1)) ws (amsgs (t + 1))
        (t + 1) N silent uncond
      have hwsq := parent_process_queue_workspaceAssigns_le
        ((child_action (outcome (t + 1)) ws (amsgs (t + 1)) (t + 1) N silent uncond).1)
        { st with listening := true }
      have hwc := child_action_countP_workspace_le (outcome (t + 1)) ws (amsgs (t + 1))
        (t + 1) N silent uncond
      dsimp only at hresq hwsq ⊢
      omega

theorem runJobFrom_lte_of_bug (ws : Option α) (amsgs : Nat → List MessageType)
    (N : Nat) (silent : Bool) (uncond : MessageType → Bool) :
    ∀ t st s c,
      (runJobFrom (fun _ => Outcome.bug) ws amsgs N silent uncond t st s c).state.last_task_error
        = st.last_task_error := by
  intro t st s c
  induction t, st, s, c using runJobFrom.induct (fun _ => Outcome.bug) ws amsgs N silent uncond with
  | case1 t st s c tries' cr st1 st2 hc ih =>
      unfold_let tries' cr st1 st2 at hc ih
      rw [runJobFrom.eq_def]
      simp only []
      rw [dif_pos hc]
      have hlte := parent_process_queue_lte_of_none _
        (child_action_no_error_of_bug ws (amsgs (t + 1)) (t + 1) N silent uncond)
        ({ st with listening := true } : ParentState α)
      dsimp only at ih hlte ⊢
      rw [ih]
      exact hlte
  | case2 t st s c tries' cr hc =>
      unfold_let tries' cr at hc
      rw [runJobFrom.eq_def]
      simp only []
      rw [dif_neg hc]
      have hlte := parent_process_queue_lte_of_none _
        (child_action_no_error_of_bug ws (amsgs (t + 1)) (t + 1) N silent uncond)
        ({ st with listening := true } : ParentState α)
      dsimp only at hlte ⊢
      exact hlte

/-- C1: with `max_retries = N` and a domain failure (a `BstError`) on every
attempt, the Job spawns a worker exactly `N + 1` times and the final
completion reports `success = false`; with `N = 0` there is exactly one
attempt. -/
theorem Job.spawn_count_all_domain_failures (α : Type) (outcome : Nat → Outcome α)
    (ws : Option α) (amsgs : Nat → List MessageType) (N : Nat) (silent : Bool)
    (uncond : MessageType → Bool)
    (h : ∀ k, ∃ d r, outcome k = Outcome.domainErr d r) :
    (runJob outcome ws amsgs N silent uncond).spawns = N + 1 ∧
    (runJob outcome ws amsgs N silent uncond).finalSuccess = false := by
  have hfail : ∀ k, (outcome k).exitCode ≠ 0 := by
    intro k
    obtain ⟨d, r, hd⟩ := h k
    rw [hd]
    simp [Outcome.exitCode]
  have hm := runJobFrom_all_fail outcome ws amsgs N silent uncond hfail 0 ParentState.initial 0 []
  unfold runJob
  refine ⟨?_, hm.2⟩
  rw [hm.1]
  omega

theorem Job.spawn_count_all_domain_failures_witness :
    (∀ k : Nat, ∃ d r,
      (fun _ : Nat => Outcome.domainErr (α := Nat) none none) k = Outcome.domainErr d r) ∧
    (runJob (fun _ : Nat => Outcome.domainErr (α := Nat) none none) none (fun _ => []) 2 false
      (fun _ => false)).spawns = 2 + 1 ∧
    (runJob (fun _ : Nat => Outcome.domainErr (α := Nat) none none) none (fun _ => []) 2 false
      (fun _ => false)).finalSuccess = false :=
  ⟨fun _ => ⟨none, none, rfl⟩,
   (Job.spawn_count_all_domain_failures Nat _ none (fun _ => []) 2 false (fun _ => false)
     (fun _ => ⟨none, none, rfl⟩)).1,
   (Job.spawn_count_all_domain_failures Nat _ none (fun _ => []) 2 false (fun _ => false)
     (fun _ => ⟨none, none, rfl⟩)).2⟩

/-- C2: `complete_cb` is invoked exactly once over the Job's lifetime, with
`success = (returncode == 0)` for the last attempt and `result` equal to what
the last attempt delivered (`None` if the last attempt failed). -/
theorem Job.complete_cb_exactly_once (α : Type) (outcome : Nat → Outcome α)
    (ws : Option α) (amsgs : Nat → List MessageType) (N : Nat) (silent : Bool)
    (uncond : MessageType → Bool) :
    (runJob outcome ws amsgs N silent uncond).completions =
      [((runJob outcome ws amsgs N silent uncond).finalSuccess,
        (runJob outcome ws amsgs N silent uncond).finalResult)] ∧
    (runJob outcome ws amsgs N silent uncond).finalResult =
      (outcome (runJob outcome ws amsgs N silent uncond).spawns).delivered ∧
    (runJob outcome ws amsgs N silent uncond).finalSuccess =
      decide ((outcome (runJob outcome ws amsgs N silent uncond).spawns).exitCode = 0) := by
  have hc := runJobFrom_completions outcome ws amsgs N silent uncond 0 ParentState.initial 0 []
  have hf := runJobFrom_final outcome ws amsgs N silent uncond 0 ParentState.initial 0 [] rfl
  have htries : (runJobFrom outcome ws amsgs N silent uncond 0 ParentState.initial 0 []).tries =
      (runJobFrom outcome ws amsgs N silent uncond 0 ParentState.initial 0 []).spawns := by
    omega
  rw [htries] at hf
  unfold runJob
  exact ⟨by simpa using hc.1, hf.1, hf.2⟩

/-- C3 counterexample: an unhandled non-domain exception (a bug) exits with
code 1 and the parent, which only sees the return code, re-spawns the worker:
with `max_retries = 1` and a bug on every attempt there are 2 spawns, not 1. -/
theorem Job.bug_respawned_counterexample :
    (runJob (fun _ => Outcome.bug (α := Nat)) none (fun _ => []) 1 false
      (fun _ => false)).spawns = 2 := by
  simp [runJob, runJobFrom, child_action, handledMsgs, child_message_handler,
    child_message_rewrite, parent_process_queue, parent_process_envelope]

/-- C3 amended: `parent_child_completed` re-spawns on any nonzero return code
while `tries <= max_retries`, so a Job whose action raises an unhandled
non-domain exception on every attempt is retried exactly like a domain
failure (`max_retries + 1` attempts); the Job ends with `success = false` and,
since bug attempts emit no `error` envelope, the last task error stays unset. -/
theorem Job.bug_retried_like_domain_failure (α : Type) (ws : Option α)
    (amsgs : Nat → List MessageType) (N : Nat) (silent : Bool)
    (uncond : MessageType → Bool) :
    (runJob (fun _ => Outcome.bug (α := α)) ws amsgs N silent uncond).spawns = N + 1 ∧
    (runJob (fun _ => Outcome.bug (α := α)) ws amsgs N silent uncond).finalSuccess = false ∧
    (runJob (fun _ => Outcome.bug (α := α)) ws amsgs N silent uncond).state.last_task_error
      = none := by
  have h1 := runJobFrom_all_fail (fun _ => Outcome.bug (α := α)) ws amsgs N silent uncond
    (fun _ => by simp [Outcome.exitCode]) 0 ParentState.initial 0 []
  have h2 := runJobFrom_lte_of_bug ws amsgs N silent uncond 0 ParentState.initial 0 []
  unfold runJob
  exact ⟨by rw [h1.1]; omega, h1.2, h2⟩

/-- C4 counterexample: with a workspace present and `max_retries = 1`, a
domain failure on both attempts sends a workspace envelope each time, so
`workspace_dict` is assigned twice over the Job's lifetime, not at most once. -/
theorem Job.workspace_dict_assigned_twice :
    (runJob (fun _ => Outcome.domainErr (α := Nat) none none) (some 0) (fun _ => []) 1 false
      (fun _ => false)).state.workspaceAssigns = 2 := by
  simp [runJob, runJobFrom, child_action, handledMsgs, child_message_handler,
    child_message_rewrite, parent_process_queue, parent_process_envelope,
    child_send_workspace, child_send_result, ParentState.initial]

/-- C4 amended: over a Job's whole lifetime `result` is assigned at most once
while processing envelopes, but `workspace_dict` is only assigned at most
once per attempt: across retries it can be reassigned, up to once per spawn. -/
theorem Job.result_once_workspace_per_attempt (α : Type) (outcome : Nat → Outcome α)
    (ws : Option α) (amsgs : Nat → List MessageType) (N : Nat) (silent : Bool)
    (uncond : MessageType → Bool) :
    (runJob outcome ws amsgs N silent uncond).state.resultAssigns ≤ 1 ∧
    (runJob outcome ws amsgs N silent uncond).state.workspaceAssigns ≤
      (runJob outcome ws amsgs N silent uncond).spawns := by
  have hm := runJobFrom_assigns outcome ws amsgs N silent uncond 0 ParentState.initial 0 []
  unfold runJob
  refine ⟨by simpa using hm.1, ?_⟩
  have h0 : (ParentState.initial (α := α)).workspaceAssigns = 0 := rfl
  have h2 := hm.2
  omega

/-- C5: when the action completes without raising, the child's trace has exit
code 0, no `error` envelope, at most one `workspace` envelope followed (in
the non-message subsequence) by at most one `result` envelope — the `result`
envelope present exactly when the action's return value is not `None` — and
ends with a SUCCESS message. -/
theorem Job.child_success_trace (α : Type) (r ws : Option α) (amsgs : List MessageType)
    (t m : Nat) (uncond : MessageType → Bool) :
    (child_action (Outcome.ok r) ws amsgs t m false uncond).2 = 0 ∧
    (child_action (Outcome.ok r) ws amsgs t m false uncond).1.countP Envelope.isError = 0 ∧
    (child_action (Outcome.ok r) ws amsgs t m false uncond).1.countP Envelope.isWorkspace ≤ 1 ∧
    (child_action (Outcome.ok r) ws amsgs t m false uncond).1.countP Envelope.isResult =
      (if r.isNone = true then 0 else 1) ∧
    (child_action (Outcome.ok r) ws amsgs t m false uncond).1.filter
        (fun e => !e.isMessage) = child_send_workspace ws ++ child_send_result r ∧
    (child_action (Outcome.ok r) ws amsgs t m false uncond).1.getLast? =
      some (Envelope.message MessageType.success) := by
  refine ⟨rfl, ?_, ?_, ?_, ?_, ?_⟩
  · simp [child_action, List.countP_append, countP_error_handledMsgs,
      countP_error_child_send_workspace, countP_error_child_send_result]
  · exact child_action_countP_workspace_le (Outcome.ok r) ws amsgs t m false uncond
  · simp [child_action, List.countP_append, countP_result_handledMsgs,
      countP_result_child_send_workspace, countP_result_child_send_result]
  · have hpre : (handledMsgs t m false uncond
        (MessageType.start :: MessageType.log :: amsgs) : List (Envelope α)).filter
        (fun e => !e.isMessage) = [] := by
      rw [List.filter_eq_nil_iff]
      intro e he
      simp [handledMsgs_isMessage t m false uncond _ e he]
    have hsucc : (handledMsgs t m false uncond [MessageType.success] : List (Envelope α)).filter
        (fun e => !e.isMessage) = [] := by
      rw [List.filter_eq_nil_iff]
      intro e he
      simp [handledMsgs_isMessage t m false uncond _ e he]
    have hws : (child_send_workspace ws).filter (fun e => !e.isMessage) =
        child_send_workspace ws := by
      rw [List.filter_eq_self]
      intro e he
      have := mem_child_send_workspace ws e he
      cases e <;> simp_all [Envelope.isWorkspace, Envelope.isMessage]
    have hr : (child_send_result r).filter (fun e => !e.isMessage) = child_send_result r := by
      rw [List.filter_eq_self]
      intro e he
      have := mem_child_send_result r e he
      cases e <;> simp_all [Envelope.isResult, Envelope.isMessage]
    simp [child_action, List.filter_append, hpre, hsucc, hws, hr]
  · have hlast : (handledMsgs t m false uncond [MessageType.success] : List (Envelope α)) =
        [Envelope.message MessageType.success] := rfl
    simp [child_action, List.getLast?_append, hlast]

/-- C6: a `Job.suspend()` call on a non-suspended job whose child still exists
sends the signal, increments the scheduler's `internal_stops` by exactly one
and sets `suspended`; when already suspended, or when the child is gone
(`ProcessLookupError`), nothing changes — so `internal_stops` tracks exactly
the number of suspend signals actually sent. -/
theorem Job.suspend_counter (e : Bool) (st : SuspendState) :
    (st.suspended = false → e = true →
      Job.suspend e st = { st with signals_sent := st.signals_sent + 1,
                                    internal_stops := st.internal_stops + 1,
                                    suspended := true }) ∧
    ((st.suspended = true ∨ e = false) → Job.suspend e st = st) ∧
    (Job.suspend e st).internal_stops + st.signals_sent =
      (Job.suspend e st).signals_sent + st.internal_stops := by
  unfold Job.suspend
  cases hs : st.suspended <;> cases e <;> simp <;> omega

/-- C7: in the child message handler, a FAIL message is rewritten to WARN
exactly when `tries <= max_retries` before being forwarded, and any message
of another type keeps its type when forwarded. -/
theorem Job.child_message_fail_downgrade (tries mr : Nat) (silent : Bool)
    (uncond : MessageType → Bool) :
    (tries ≤ mr →
      child_message_handler tries mr false uncond MessageType.fail =
        some MessageType.warn) ∧
    (∀ t t', t ≠ MessageType.fail →
      child_message_handler tries mr silent uncond t = some t' → t' = t) ∧
    (mr < tries → ∀ t',
      child_message_handler tries mr silent uncond MessageType.fail = some t' →
        t' = MessageType.fail) := by
  refine ⟨?_, ?_, ?_⟩
  · intro h
    simp [child_message_handler, child_message_rewrite, h]
  · intro t t' ht h
    simp only [child_message_handler, child_message_rewrite] at h
    rw [if_neg (show ¬(t = MessageType.fail ∧ tries ≤ mr) from fun hc => ht hc.1)] at h
    by_cases h1 : silent = true ∧ uncond t = false
    · rw [if_pos h1] at h
      exact absurd h (by simp)
    · rw [if_neg h1] at h
      by_cases h2 : t = MessageType.log
      · rw [if_pos h2] at h
        exact absurd h (by simp)
      · rw [if_neg h2] at h
        simpa using h.symm
  · intro hlt t' h
    simp only [child_message_handler, child_message_rewrite] at h
    rw [if_neg (show ¬(True ∧ tries ≤ mr) from fun hc => absurd hc.2 (by omega))] at h
    by_cases h1 : silent = true ∧ uncond MessageType.fail = false
    · rw [if_pos h1] at h
      exact absurd h (by simp)
    · rw [if_neg h1] at h
      rw [if_neg (show ¬(MessageType.fail = MessageType.log) from by simp)] at h
      simpa using h.symm

/-- C8: `Stream.build` installs a PullQueue iff the artifact cache has fetch
remotes and a PushQueue iff it has push remotes, in the fixed order Track
(when tracking), Pull, Fetch, Build, Push. -/
theorem Stream.build_queue_assembly :
    ∀ tr f p : Bool,
      (QueueKind.pull ∈ Stream.buildQueues tr f p ↔ f = true) ∧
      (QueueKind.push ∈ Stream.buildQueues tr f p ↔ p = true) ∧
      Stream.buildQueues tr f p =
        (if tr then [QueueKind.track] else []) ++ (if f then [QueueKind.pull] else [])
          ++ [QueueKind.fetch, QueueKind.build]
          ++ (if p then [QueueKind.push] else []) := by
  decide

/-- C9: `TrackQueue.done` returns `False` as `keep_in_pipeline` for every
input — `changed` is initialized `False` and never reassigned — so a tracked
element always appears skipped, even when refs were saved. -/
theorem TrackQueue.done_never_keeps (saveOk : Nat → Bool) (result : List (Nat × Nat))
    (returncode : Int) :
    (TrackQueue.done saveOk result returncode).1 = false := by
  unfold TrackQueue.done
  split <;> rfl

/-- C10: an envelope processed while `listening` is `False` leaves the whole
parent-side state unchanged. -/
theorem Job.parent_ignores_when_not_listening (α : Type) (st : ParentState α)
    (e : Envelope α) (h : st.listening = false) :
    parent_process_envelope st e = st := by
  unfold parent_process_envelope
  simp [h]

theorem Job.parent_ignores_when_not_listening_witness :
    parent_process_envelope (ParentState.initial (α := Nat))
      (Envelope.message MessageType.start) = ParentState.initial :=
  Job.parent_ignores_when_not_listening Nat ParentState.initial
    (Envelope.message MessageType.start) rfl
